import Mathlib

/-!
Shallow embedding of the "Ride the Bus" multiplayer room/session server
(`server.ts`, with the `Deck`/`Card` classes of `deck.ts`).

Modelling conventions:
* JS numbers holding card ranks and scores become `Nat`; the rank
  difference for inside/outside is computed in `Int` to reflect
  `Math.abs(nextCard.value - currentCard.value)`.
* The mutable `Room` object becomes a `Room` structure threaded through
  handler functions; each handler returns the updated room together with
  the list of messages it sends (broadcasts and direct replies).
* `Deck` is the list of its cards; `draw` pops the last element, as
  `this.cards.pop()` does.  `shuffle` is the source's Fisher–Yates loop,
  parameterised by the stream of random draws `rand : Nat → Nat`
  (`rand i % (i+1)` plays the role of `Math.floor(Math.random()*(i+1))`,
  which lies in `[0, i]`).
* Timestamp bookkeeping (`createdAt`, `lastActivity`, `connectionTime`)
  and logging are not modelled: no claim mentions them and they do not
  feed back into the game logic.
-/

inductive Suit where
  | hearts | diamonds | clubs | spades
deriving DecidableEq, Repr

def Suit.toKey : Suit → String
  | .hearts => "hearts"
  | .diamonds => "diamonds"
  | .clubs => "clubs"
  | .spades => "spades"

structure Card where
  suit : Suit
  value : Nat
deriving DecidableEq, Repr

/-- The four round stages of `server.ts` (the `null` stage is `Option.none`). -/
inductive Stage where
  | red_black | higher_lower | inside_outside | suit
deriving DecidableEq, Repr

/-- `deck.ts` `Deck.reset`: all four suits, values 1..13, in nested-loop order
(before the shuffle that `reset` triggers). -/
def freshDeckCards : List Card :=
  [Suit.hearts, Suit.diamonds, Suit.clubs, Suit.spades].flatMap
    (fun s => (List.range 13).map (fun v => ⟨s, v + 1⟩))

/-- One swap step of the Fisher–Yates loop body
`[this.cards[i], this.cards[j]] = [this.cards[j], this.cards[i]]`. -/
def swapList (l : List Card) (i j : Nat) : List Card :=
  match l.get? i, l.get? j with
  | some a, some b => (l.set i b).set j a
  | _, _ => l

/-- The Fisher–Yates loop of `Deck.shuffle`, counting `i` down to 1;
`rand (i) % (i+1)` models `Math.floor(Math.random() * (i + 1))`. -/
def shuffleAux (rand : Nat → Nat) : Nat → List Card → List Card
  | 0, l => l
  | i + 1, l => shuffleAux rand i (swapList l (i + 1) (rand (i + 1) % (i + 2)))

/-- `Deck.shuffle`: `for (let i = this.cards.length - 1; i > 0; i--) …`. -/
def shuffleCards (rand : Nat → Nat) (l : List Card) : List Card :=
  shuffleAux rand (l.length - 1) l

/-- `Deck.reset`: rebuild the 52 cards, then shuffle. -/
def deckReset (rand : Nat → Nat) : List Card :=
  shuffleCards rand freshDeckCards

/-- `Deck.draw`: `this.cards.pop() || null` — removes and returns the last
card, or `none` on an empty deck. -/
def deckDraw (d : List Card) : Option Card × List Card :=
  match d.getLast? with
  | none => (none, d)
  | some c => (some c, d.dropLast)

/-- `checkGuess(guess, currentCard, nextCard)` of `server.ts`: a `switch` on
the raw guess string whose `default` arm compares the guess with the next
card's suit name. -/
def checkGuess (guess : String) (currentCard nextCard : Card) : Bool :=
  if guess = "red" then
    decide (nextCard.suit = Suit.hearts ∨ nextCard.suit = Suit.diamonds)
  else if guess = "black" then
    decide (nextCard.suit = Suit.clubs ∨ nextCard.suit = Suit.spades)
  else if guess = "higher" then
    decide (nextCard.value > currentCard.value)
  else if guess = "lower" then
    decide (nextCard.value < currentCard.value)
  else if guess = "inside" then
    decide (((nextCard.value : Int) - (currentCard.value : Int)).natAbs ≤ 3)
  else if guess = "outside" then
    decide (((nextCard.value : Int) - (currentCard.value : Int)).natAbs > 3)
  else
    decide (nextCard.suit.toKey = guess)

/-- `getNextStage` of `server.ts`. -/
def getNextStage : Option Stage → Option Stage
  | some .red_black => some .higher_lower
  | some .higher_lower => some .inside_outside
  | some .inside_outside => some .suit
  | some .suit => none
  | none => none

/-- A player as the room stores it; `connId` stands for the `ws` handle. -/
structure Player where
  name : String
  score : Nat
  connId : Nat
deriving DecidableEq, Repr

/-- The `{name, score}` projection used in every broadcast payload. -/
structure PlayerView where
  name : String
  score : Nat
deriving DecidableEq, Repr

def playersView (ps : List Player) : List PlayerView :=
  ps.map (fun p => ⟨p.name, p.score⟩)

structure Room where
  id : String
  players : List Player
  deck : List Card
  currentCard : Option Card
  stage : Option Stage
  isGameStarted : Bool
  creator : String
deriving Repr

/-- The messages the server sends (broadcasts and direct replies), with the
fields each carries on the wire. -/
inductive ServerEvent where
  | errorMsg (code message : String)
  | gameStarted (stage : Option Stage) (currentCard : Option Card)
      (players : List PlayerView)
  | guessResult (playerName : String) (score : Nat) (isCorrect : Bool)
      (nextStage : Option Stage) (currentCard : Option Card)
  | gameOver (winners : List String) (scores : List PlayerView)
  | playerJoined (playerName : String) (players : List PlayerView)
  | playerLeft (playerName : String) (players : List PlayerView)
deriving DecidableEq, Repr

/-- `Math.max(...room.players.map(p => p.score))` — `none` for an empty
room, where JS would give `-Infinity`. -/
def listMax : List Nat → Option Nat
  | [] => none
  | x :: xs =>
    match listMax xs with
    | none => some x
    | some m => some (max x m)

/-- `handleGameOver`: pick every player whose score equals the maximum,
broadcast `gameOver`, reset the room to waiting without touching scores. -/
def handleGameOver (room : Room) : Room × List ServerEvent :=
  let m := listMax (room.players.map Player.score)
  let winners := (room.players.filter (fun p => decide (some p.score = m))).map Player.name
  ({ room with isGameStarted := false, stage := none, currentCard := none },
   [.gameOver winners (playersView room.players)])

/-- `player.score++` on the sender's player object: the room holds at most
one player per name, so bumping the first occurrence matches the source's
single mutated object. -/
def bumpScore : List Player → String → List Player
  | [], _ => []
  | p :: ps, n =>
    if p.name = n then { p with score := p.score + 1 } :: ps
    else p :: bumpScore ps n

/-- The `case 'guess'` handler (the room exists; `senderName` identifies the
connection's player object). -/
def handleGuess (room : Room) (senderName guess : String) :
    Room × List ServerEvent :=
  match room.isGameStarted, room.currentCard with
  | true, some cur =>
    match deckDraw room.deck with
    | (none, _) => handleGameOver room
    | (some nextCard, deck') =>
      let isCorrect := checkGuess guess cur nextCard
      let players' := if isCorrect then bumpScore room.players senderName
                      else room.players
      let score' :=
        ((players'.find? (fun p => decide (p.name = senderName))).map Player.score).getD 0
      let stage' := getNextStage room.stage
      let room' := { room with players := players', deck := deck',
                               currentCard := some nextCard, stage := stage' }
      let ev := ServerEvent.guessResult senderName score' isCorrect stage'
                  (some nextCard)
      if stage' = none then
        let res := handleGameOver room'
        (res.1, ev :: res.2)
      else
        (room', [ev])
  | _, _ =>
    (room, [.errorMsg "GAME_NOT_ACTIVE" "Game is not active"])

/-- The `case 'startGame'` handler: reset and reshuffle the deck, enter
`red_black`, draw the first card, broadcast `gameStarted`; silently do
nothing when a game is already running. -/
def handleStartGame (rand : Nat → Nat) (room : Room) :
    Room × List ServerEvent :=
  if room.isGameStarted then (room, [])
  else
    let deck := deckReset rand
    let drawn := deckDraw deck
    let room' := { room with isGameStarted := true, deck := drawn.2,
                             stage := some Stage.red_black,
                             currentCard := drawn.1 }
    (room', [.gameStarted room'.stage room'.currentCard
               (playersView room.players)])

/-- `readyState` of a `ws` handle, as admission inspects it. -/
inductive ConnState where
  | opened | closing | closed
deriving DecidableEq, Repr

/-- A transport connection: an identity plus its current `readyState`. -/
structure Conn where
  id : Nat
  state : ConnState
deriving DecidableEq, Repr

/-- The server-global mutable state the admission path touches: the
`rooms` map and the `connections` map (`roomId:playerName → ws`).  The
`players` reverse map is recoverable from the rooms and is not duplicated
here. -/
structure ServerState where
  rooms : List (String × Room)
  connections : List (String × Conn)
deriving Repr

def lookupAssoc {α : Type} (l : List (String × α)) (k : String) : Option α :=
  (l.find? (fun e => decide (e.1 = k))).map Prod.snd

def setAssoc {α : Type} (l : List (String × α)) (k : String) (v : α) :
    List (String × α) :=
  (l.filter (fun e => decide (e.1 ≠ k))) ++ [(k, v)]

def removeAssoc {α : Type} (l : List (String × α)) (k : String) :
    List (String × α) :=
  l.filter (fun e => decide (e.1 ≠ k))

/-- How `wss.on('connection')` resolves a new connection attempt. -/
inductive AdmitResult where
  | directory
  | rejectedMissingParams
  | rejectedDuplicate
  | admitted (isNewRoom : Bool)
deriving DecidableEq, Repr

/-- A query parameter is absent or empty — falsy under `!roomId`. -/
def paramFalsy : Option String → Bool
  | none => true
  | some s => decide (s = "")

/-- The room object built on first join to an unknown id. -/
def freshRoom (roomId creator : String) (rand : Nat → Nat) : Room :=
  { id := roomId, players := [], deck := deckReset rand,
    currentCard := none, stage := none, isGameStarted := false,
    creator := creator }

/-- Adding the connection's player to the room: drop any player of the
same name, then push the new entry with `score: 0`. -/
def joinRoom (room : Room) (playerName : String) (connId : Nat) : Room :=
  { room with players :=
      room.players.filter (fun p => decide (p.name ≠ playerName))
        ++ [⟨playerName, 0, connId⟩] }

/-- Disconnect cleanup on a room: the player is filtered out. -/
def removePlayer (room : Room) (playerName : String) : Room :=
  { room with players :=
      room.players.filter (fun p => decide (p.name ≠ playerName)) }

/-- The admission path of `wss.on('connection')`: directory listeners,
missing-parameter rejection, duplicate-connection arbitration with stale
eviction, then room get-or-create and join.  Returns the new global
state, how the attempt was resolved, and the messages broadcast to the
room. -/
def handleNewConnection (st : ServerState) (ws : Conn)
    (roomIdParam playerNameParam : Option String) (rand : Nat → Nat) :
    ServerState × AdmitResult × List ServerEvent :=
  if paramFalsy roomIdParam ∧ paramFalsy playerNameParam then
    (st, .directory, [])
  else if paramFalsy roomIdParam ∨ paramFalsy playerNameParam then
    (st, .rejectedMissingParams, [])
  else
    let roomId := roomIdParam.getD ""
    let playerName := playerNameParam.getD ""
    let key := roomId ++ ":" ++ playerName
    match lookupAssoc st.connections key with
    | some existing =>
      if existing.state = ConnState.opened then
        (st, .rejectedDuplicate, [])
      else
        -- stale mapping: evict it, then admit the new connection
        let conns := setAssoc (removeAssoc st.connections key) key ws
        admitNew { st with connections := conns } ws roomId playerName rand
    | none =>
      let conns := setAssoc st.connections key ws
      admitNew { st with connections := conns } ws roomId playerName rand
where
  /-- Room get-or-create, player join and `playerJoined` broadcast. -/
  admitNew (st : ServerState) (ws : Conn) (roomId playerName : String)
      (rand : Nat → Nat) : ServerState × AdmitResult × List ServerEvent :=
    let (room, isNewRoom) :=
      match lookupAssoc st.rooms roomId with
      | some r => (r, false)
      | none => (freshRoom roomId playerName rand, true)
    let room' := joinRoom room playerName ws.id
    let events :=
      [ServerEvent.playerJoined playerName (playersView room'.players)]
        ++ (if room'.isGameStarted then
              [ServerEvent.gameStarted room'.stage room'.currentCard
                 (playersView room'.players)]
            else [])
    ({ st with rooms := setAssoc st.rooms roomId room' },
     .admitted isNewRoom, events)

/-- The room states reachable between message-processing steps: a room is
created by a first join, and then evolves by joins, disconnects,
`startGame`, `guess` and game-over. -/
inductive ReachableRoom : Room → Prop where
  | created (roomId creator playerName : String) (connId : Nat)
      (rand : Nat → Nat) :
      ReachableRoom (joinRoom (freshRoom roomId creator rand) playerName connId)
  | join (room : Room) (playerName : String) (connId : Nat) :
      ReachableRoom room → ReachableRoom (joinRoom room playerName connId)
  | leave (room : Room) (playerName : String) :
      ReachableRoom room → ReachableRoom (removePlayer room playerName)
  | start (room : Room) (rand : Nat → Nat) :
      ReachableRoom room → ReachableRoom (handleStartGame rand room).1
  | guess (room : Room) (senderName g : String) :
      ReachableRoom room → ReachableRoom (handleGuess room senderName g).1
  | gameOver (room : Room) :
      ReachableRoom room → ReachableRoom (handleGameOver room).1

-- Quick sanity checks of the embedding on concrete inputs.
example : checkGuess "red" ⟨.clubs, 4⟩ ⟨.hearts, 9⟩ = true := by decide
example : checkGuess "higher" ⟨.clubs, 4⟩ ⟨.hearts, 9⟩ = true := by decide
example : checkGuess "inside" ⟨.clubs, 4⟩ ⟨.hearts, 7⟩ = true := by decide
example : checkGuess "inside" ⟨.clubs, 4⟩ ⟨.hearts, 8⟩ = false := by decide
example : checkGuess "hearts" ⟨.clubs, 4⟩ ⟨.hearts, 8⟩ = true := by decide
example : checkGuess "banana" ⟨.clubs, 4⟩ ⟨.hearts, 8⟩ = false := by decide
example : freshDeckCards.length = 52 := by decide
example : getNextStage (some .suit) = none := by rfl

/-! ### Helper lemmas about the deck -/

theorem swapList_length (l : List Card) (i j : Nat) :
    (swapList l i j).length = l.length := by
  unfold swapList
  cases l.get? i <;> cases l.get? j <;> simp

theorem shuffleAux_length (rand : Nat → Nat) :
    ∀ (n : Nat) (l : List Card), (shuffleAux rand n l).length = l.length := by
  intro n
  induction n with
  | zero => intro l; rfl
  | succ i ih =>
    intro l
    simp [shuffleAux, ih, swapList_length]

theorem deckReset_length (rand : Nat → Nat) : (deckReset rand).length = 52 := by
  unfold deckReset shuffleCards
  rw [shuffleAux_length]
  decide

theorem count_set_eq (l : List Card) (i : Nat) (a b : Card)
    (h : l.get? i = some b) (x : Card) :
    (l.set i a).count x + (if b = x then 1 else 0)
      = l.count x + (if a = x then 1 else 0) := by
  induction l generalizing i with
  | nil => simp at h
  | cons y ys ih =>
    cases i with
    | zero =>
      have hyb : y = b := by
        simp only [List.get?] at h
        injection h
      subst hyb
      show ((a :: ys).count x) + _ = _
      simp only [List.count_cons, beq_iff_eq]
      by_cases hyx : y = x <;> by_cases hax : a = x <;> simp [hyx, hax]
    | succ i' =>
      have h' : ys.get? i' = some b := h
      have hih := ih i' h'
      show ((y :: ys.set i' a).count x) + _ = _
      simp only [List.count_cons, beq_iff_eq]
      by_cases hyx : y = x <;> by_cases hax : a = x <;> by_cases hbx : b = x
        <;> simp [hyx, hax, hbx] at hih ⊢ <;> omega

theorem swapList_perm (l : List Card) (i j : Nat) :
    (swapList l i j).Perm l := by
  unfold swapList
  cases hi : l.get? i with
  | none => exact List.Perm.refl l
  | some a =>
    cases hj : l.get? j with
    | none => exact List.Perm.refl l
    | some b =>
      apply List.perm_iff_count.mpr
      intro x
      have hsetj : (l.set i b).get? j = some b := by
        by_cases hij : i = j
        · subst hij
          have hlen : i < l.length := by
            rw [List.get?_eq_getElem?] at hi
            exact (List.getElem?_eq_some.mp hi).1
          rw [List.get?_eq_getElem?]
          simp [List.getElem?_set_self', List.getElem?_eq_getElem hlen]
        · rw [List.get?_eq_getElem?, List.getElem?_set_ne hij,
              ← List.get?_eq_getElem?]
          exact hj
      have houter := count_set_eq (l.set i b) j a b hsetj x
      have hinner := count_set_eq l i b a hi x
      by_cases hax : a = x <;> by_cases hbx : b = x
        <;> simp [hax, hbx] at houter hinner ⊢ <;> omega

theorem shuffleAux_perm (rand : Nat → Nat) :
    ∀ (n : Nat) (l : List Card), (shuffleAux rand n l).Perm l := by
  intro n
  induction n with
  | zero => intro l; exact List.Perm.refl l
  | succ i ih =>
    intro l
    exact (ih _).trans (swapList_perm l (i + 1) (rand (i + 1) % (i + 2)))

/-- `Deck.reset` rebuilds exactly the standard 52 cards (the shuffle is a
permutation). -/
theorem deckReset_perm (rand : Nat → Nat) :
    (deckReset rand).Perm freshDeckCards :=
  shuffleAux_perm rand _ _

theorem deckDraw_snd_length (d : List Card) :
    (deckDraw d).2.length = d.length - 1 := by
  unfold deckDraw
  cases h : d.getLast? with
  | none =>
    have : d = [] := List.getLast?_eq_none_iff.mp h
    simp [this]
  | some c => simp [List.length_dropLast]

theorem deckDraw_fst_isSome (d : List Card) (h : d ≠ []) :
    (deckDraw d).1.isSome = true := by
  unfold deckDraw
  cases hl : d.getLast? with
  | none => exact absurd (List.getLast?_eq_none_iff.mp hl) h
  | some c => simp

theorem deckDraw_fst_of_ne_nil (d : List Card) (h : d ≠ []) :
    ∃ c deck', deckDraw d = (some c, deck') := by
  unfold deckDraw
  cases hl : d.getLast? with
  | none => exact absurd (List.getLast?_eq_none_iff.mp hl) h
  | some c => exact ⟨c, d.dropLast, rfl⟩

theorem deckDraw_nil : deckDraw [] = (none, []) := rfl

/-! ### Helper lemmas about `listMax` -/

theorem listMax_isSome (l : List Nat) (h : l ≠ []) :
    ∃ m, listMax l = some m := by
  cases l with
  | nil => exact absurd rfl h
  | cons x xs =>
    unfold listMax
    cases listMax xs <;> exact ⟨_, rfl⟩

theorem listMax_eq_none (l : List Nat) : listMax l = none ↔ l = [] := by
  cases l with
  | nil => simp [listMax]
  | cons x xs =>
    unfold listMax
    cases listMax xs <;> simp

theorem listMax_le (l : List Nat) (m : Nat) (h : listMax l = some m) :
    ∀ x ∈ l, x ≤ m := by
  induction l generalizing m with
  | nil => simp [listMax] at h
  | cons y ys ih =>
    intro x hx
    unfold listMax at h
    cases hys : listMax ys with
    | none =>
      rw [hys] at h
      simp only [Option.some.injEq] at h
      have hnil : ys = [] := (listMax_eq_none ys).mp hys
      subst hnil
      rcases List.mem_singleton.mp hx with rfl
      omega
    | some m' =>
      rw [hys] at h
      simp only [Option.some.injEq] at h
      rcases List.mem_cons.mp hx with rfl | hx'
      · calc x ≤ max x m' := le_max_left _ _
          _ = m := h
      · calc x ≤ m' := ih m' hys x hx'
          _ ≤ max y m' := le_max_right _ _
          _ = m := h

theorem listMax_mem (l : List Nat) (m : Nat) (h : listMax l = some m) :
    m ∈ l := by
  induction l generalizing m with
  | nil => simp [listMax] at h
  | cons y ys ih =>
    unfold listMax at h
    cases hys : listMax ys with
    | none =>
      rw [hys] at h
      simp only [Option.some.injEq] at h
      simp [← h]
    | some m' =>
      rw [hys] at h
      simp only [Option.some.injEq] at h
      rcases Nat.le_total y m' with hle | hle
      · have hm : m = m' := by rw [← h, Nat.max_eq_right hle]
        exact List.mem_cons_of_mem _ (hm ▸ ih m' hys)
      · have hm : m = y := by rw [← h, Nat.max_eq_left hle]
        simp [hm]

/-! ### Helper lemmas about the handlers -/

theorem handleGameOver_fst (room : Room) :
    (handleGameOver room).1 =
      { room with isGameStarted := false, stage := none, currentCard := none } := rfl

theorem handleGameOver_snd (room : Room) :
    (handleGameOver room).2 =
      [ServerEvent.gameOver
        ((room.players.filter
            (fun p => decide (some p.score = listMax (room.players.map Player.score)))).map
          Player.name)
        (playersView room.players)] := rfl

theorem handleStartGame_players (rand : Nat → Nat) (room : Room) :
    (handleStartGame rand room).1.players = room.players := by
  unfold handleStartGame
  split <;> rfl

theorem handleStartGame_of_started (rand : Nat → Nat) (room : Room)
    (h : room.isGameStarted = true) :
    handleStartGame rand room = (room, []) := by
  unfold handleStartGame
  rw [h]
  simp

theorem handleStartGame_of_waiting (rand : Nat → Nat) (room : Room)
    (h : room.isGameStarted = false) :
    handleStartGame rand room =
      ({ room with isGameStarted := true, deck := (deckDraw (deckReset rand)).2,
                   stage := some Stage.red_black,
                   currentCard := (deckDraw (deckReset rand)).1 },
       [ServerEvent.gameStarted (some Stage.red_black)
          (deckDraw (deckReset rand)).1 (playersView room.players)]) := by
  unfold handleStartGame
  rw [h]
  simp

theorem handleGuess_not_active (room : Room) (n g : String)
    (h : room.isGameStarted = false ∨ room.currentCard = none) :
    handleGuess room n g =
      (room, [.errorMsg "GAME_NOT_ACTIVE" "Game is not active"]) := by
  unfold handleGuess
  rcases h with h | h
  · rw [h]
  · rw [h]
    cases room.isGameStarted <;> rfl

theorem handleGuess_drawn (room : Room) (n g : String) (cur nextCard : Card)
    (deck' : List Card)
    (h1 : room.isGameStarted = true) (h2 : room.currentCard = some cur)
    (h3 : deckDraw room.deck = (some nextCard, deck')) :
    handleGuess room n g =
      (let isCorrect := checkGuess g cur nextCard
       let players' := if isCorrect then bumpScore room.players n
                       else room.players
       let score' :=
         ((players'.find? (fun p => decide (p.name = n))).map Player.score).getD 0
       let stage' := getNextStage room.stage
       let room' := { room with players := players', deck := deck',
                                currentCard := some nextCard, stage := stage' }
       let ev := ServerEvent.guessResult n score' isCorrect stage'
                   (some nextCard)
       if stage' = none then
         ((handleGameOver room').1, ev :: (handleGameOver room').2)
       else
         (room', [ev])) := by
  unfold handleGuess
  rw [h1, h2, h3]

theorem handleGuess_empty_deck (room : Room) (n g : String) (cur : Card)
    (h1 : room.isGameStarted = true) (h2 : room.currentCard = some cur)
    (h3 : room.deck = []) :
    handleGuess room n g = handleGameOver room := by
  unfold handleGuess
  rw [h1, h2, h3]
  rfl

/-! ### Helper lemmas about score bookkeeping -/

theorem bumpScore_append (pre post : List Player) (p : Player) (n : String)
    (hname : p.name = n) (hpre : ∀ q ∈ pre, q.name ≠ n) :
    bumpScore (pre ++ p :: post) n =
      pre ++ { p with score := p.score + 1 } :: post := by
  induction pre with
  | nil => simp [bumpScore, hname]
  | cons q qs ih =>
    have hq : q.name ≠ n := hpre q (List.mem_cons_self q qs)
    have ih' := ih (fun r hr => hpre r (List.mem_cons_of_mem q hr))
    simp [bumpScore, hq, ih']

theorem find?_name_of_head (pre post : List Player) (p : Player) (n : String)
    (hname : p.name = n) (hpre : ∀ q ∈ pre, q.name ≠ n) :
    (pre ++ p :: post).find? (fun q => decide (q.name = n)) = some p := by
  induction pre with
  | nil => simp [List.find?_cons_of_pos, hname]
  | cons q qs ih =>
    have hq : q.name ≠ n := hpre q (List.mem_cons_self q qs)
    have ih' := ih (fun r hr => hpre r (List.mem_cons_of_mem q hr))
    simpa [List.find?_cons_of_neg, hq] using ih'

theorem bumpScore_names (ps : List Player) (n : String) :
    (bumpScore ps n).map Player.name = ps.map Player.name := by
  induction ps with
  | nil => rfl
  | cons p ps ih =>
    unfold bumpScore
    by_cases h : p.name = n <;> simp [h, ih]

/-- One active `guess` step with a non-empty deck: stage advances by
`getNextStage`, the deck shrinks by one, and the room either stays active
with a drawn card (stage not yet terminal) or is reset by game-over
(stage terminal). -/
theorem handleGuess_step (room : Room) (n g : String)
    (h1 : room.isGameStarted = true) (h2 : room.currentCard.isSome = true)
    (h3 : room.deck ≠ []) :
    (handleGuess room n g).1.stage = getNextStage room.stage
    ∧ (handleGuess room n g).1.deck.length = room.deck.length - 1
    ∧ (getNextStage room.stage = none →
        (handleGuess room n g).1.isGameStarted = false
        ∧ (handleGuess room n g).1.currentCard = none)
    ∧ (getNextStage room.stage ≠ none →
        (handleGuess room n g).1.isGameStarted = true
        ∧ (handleGuess room n g).1.currentCard.isSome = true) := by
  obtain ⟨cur, hcur⟩ := Option.isSome_iff_exists.mp h2
  obtain ⟨nextCard, deck', hdraw⟩ := deckDraw_fst_of_ne_nil room.deck h3
  have hlen : deck'.length = room.deck.length - 1 := by
    have := deckDraw_snd_length room.deck
    rw [hdraw] at this
    exact this
  rw [handleGuess_drawn room n g cur nextCard deck' h1 hcur hdraw]
  by_cases hst : getNextStage room.stage = none
  · simp [hst, handleGameOver_fst, hlen]
  · simp [hst, hlen, h1]

/-- Scoring does not look at the stage: changing only the stage leaves
the resulting player list (scores included) untouched. -/
theorem handleGuess_players_stage_blind (room : Room) (n g : String)
    (s' : Option Stage) :
    (handleGuess { room with stage := s' } n g).1.players
      = (handleGuess room n g).1.players := by
  by_cases hs : room.isGameStarted = true
  · by_cases hcn : room.currentCard = none
    · rw [handleGuess_not_active { room with stage := s' } n g (Or.inr hcn),
          handleGuess_not_active room n g (Or.inr hcn)]
    · obtain ⟨cur, hc⟩ := Option.ne_none_iff_exists'.mp hcn
      by_cases hdeck : room.deck = []
      · rw [handleGuess_empty_deck { room with stage := s' } n g cur hs hc hdeck,
            handleGuess_empty_deck room n g cur hs hc hdeck,
            handleGameOver_fst, handleGameOver_fst]
      · obtain ⟨nc, d', hdraw⟩ := deckDraw_fst_of_ne_nil room.deck hdeck
        rw [handleGuess_drawn { room with stage := s' } n g cur nc d' hs hc hdraw,
            handleGuess_drawn room n g cur nc d' hs hc hdraw]
        by_cases h1 : getNextStage s' = none
          <;> by_cases h2 : getNextStage room.stage = none
          <;> simp [h1, h2, handleGameOver_fst]
  · have hs' : room.isGameStarted = false := by
      cases hb : room.isGameStarted
      · rfl
      · exact absurd hb hs
    rw [handleGuess_not_active { room with stage := s' } n g (Or.inl hs'),
        handleGuess_not_active room n g (Or.inl hs')]

/-! ### Claim theorems -/

/-- C1 (amended): `checkGuess` decides each token exactly per the §4.3a
table — red/black by the next card's colour, higher/lower by strict rank
comparison, inside/outside by whether the absolute rank difference is ≤ 3,
and suit names by exact suit equality — except that an equal rank makes
both 'higher' and 'lower' incorrect (the comparisons are strict), rather
than correct as the claim stated. -/
theorem checkGuess_matches_table (prev next : Card) :
    (checkGuess "red" prev next
        = decide (next.suit = Suit.hearts ∨ next.suit = Suit.diamonds))
  ∧ (checkGuess "black" prev next
        = decide (next.suit = Suit.clubs ∨ next.suit = Suit.spades))
  ∧ (checkGuess "higher" prev next = decide (next.value > prev.value))
  ∧ (checkGuess "lower" prev next = decide (next.value < prev.value))
  ∧ (checkGuess "inside" prev next
        = decide (((next.value : Int) - (prev.value : Int)).natAbs ≤ 3))
  ∧ (checkGuess "outside" prev next
        = decide (3 < ((next.value : Int) - (prev.value : Int)).natAbs))
  ∧ (∀ s : Suit, checkGuess s.toKey prev next = decide (next.suit = s))
  ∧ (∀ (s s' : Suit) (v : Nat),
        checkGuess "higher" ⟨s, v⟩ ⟨s', v⟩ = false
        ∧ checkGuess "lower" ⟨s, v⟩ ⟨s', v⟩ = false) := by
  obtain ⟨ns, nv⟩ := next
  obtain ⟨ps, pv⟩ := prev
  refine ⟨by simp [checkGuess], by simp [checkGuess], by simp [checkGuess],
          by simp [checkGuess], by simp [checkGuess], by simp [checkGuess],
          ?_, ?_⟩
  · intro s
    cases s <;> cases ns <;> simp [checkGuess, Suit.toKey]
  · intro s s' v
    constructor <;> simp [checkGuess]

/-- C1 counterexample: on two cards of equal rank the code scores both
'higher' and 'lower' as incorrect, while the claim says an equal rank
counts as correct regardless of which of the two was guessed. -/
theorem checkGuess_equal_rank_counterexample :
    checkGuess "higher" ⟨Suit.hearts, 7⟩ ⟨Suit.spades, 7⟩ = false
    ∧ checkGuess "lower" ⟨Suit.hearts, 7⟩ ⟨Suit.spades, 7⟩ = false := by
  decide

/-- C10: `checkGuess` evaluates a guess purely by its spelling — any token
other than the six comparison keywords falls through to a suit-name
comparison with the next card, so "hearts" scores exactly when the next
card is a heart — and the handler's scoring never consults the room's
stage: rooms differing only in stage produce identical player scores for
the same guess. -/
theorem checkGuess_ignores_stage :
    (∀ g : String, g ≠ "red" → g ≠ "black" → g ≠ "higher" → g ≠ "lower" →
      g ≠ "inside" → g ≠ "outside" →
      ∀ prev next : Card,
        checkGuess g prev next = decide (next.suit.toKey = g))
  ∧ (∀ prev next : Card,
      checkGuess "hearts" prev next = decide (next.suit = Suit.hearts))
  ∧ (∀ (room : Room) (n g : String) (s1 s2 : Option Stage),
      (handleGuess { room with stage := s1 } n g).1.players
        = (handleGuess { room with stage := s2 } n g).1.players) := by
  refine ⟨?_, ?_, ?_⟩
  · intro g h1 h2 h3 h4 h5 h6 prev next
    simp [checkGuess, h1, h2, h3, h4, h5, h6]
  · intro prev next
    cases hns : next.suit <;> simp [checkGuess, hns, Suit.toKey]
  · intro room n g s1 s2
    rw [handleGuess_players_stage_blind room n g s1,
        handleGuess_players_stage_blind room n g s2]

/-- C10 witness: the unrecognized token "banana" is an incorrect suit
guess, and guessing "hearts" is evaluated by suit equality. -/
theorem checkGuess_ignores_stage_witness :
    checkGuess "banana" ⟨Suit.hearts, 2⟩ ⟨Suit.spades, 3⟩ = false := by
  rw [checkGuess_ignores_stage.1 "banana" (by decide) (by decide) (by decide)
        (by decide) (by decide) (by decide) ⟨Suit.hearts, 2⟩ ⟨Suit.spades, 3⟩]
  decide

/-- C3: a guess on an active room whose deck has 0 cards left is not
answered with an error: it triggers game-over, broadcasting `gameOver`
with the scores standing at that point and resetting the room to
waiting. -/
theorem guess_on_empty_deck_spec (room : Room) (n g : String) (cur : Card)
    (h1 : room.isGameStarted = true) (h2 : room.currentCard = some cur)
    (h3 : room.deck = []) :
    (∀ c m, ServerEvent.errorMsg c m ∉ (handleGuess room n g).2)
  ∧ (∃ w, (handleGuess room n g).2
        = [ServerEvent.gameOver w (playersView room.players)])
  ∧ (handleGuess room n g).1.isGameStarted = false
  ∧ (handleGuess room n g).1.stage = none
  ∧ (handleGuess room n g).1.currentCard = none
  ∧ (handleGuess room n g).1.players = room.players := by
  rw [handleGuess_empty_deck room n g cur h1 h2 h3]
  refine ⟨?_, ⟨_, handleGameOver_snd room⟩, rfl, rfl, rfl, rfl⟩
  intro c m hmem
  rw [handleGameOver_snd] at hmem
  simp at hmem

/-- C3 witness: a concrete active two-player room with an empty deck. -/
theorem guess_on_empty_deck_spec_witness :
    (handleGuess
      { id := "r", players := [⟨"a", 2, 0⟩, ⟨"b", 5, 1⟩], deck := [],
        currentCard := some ⟨Suit.hearts, 3⟩, stage := some Stage.higher_lower,
        isGameStarted := true, creator := "a" } "a" "red").1.isGameStarted
      = false :=
  (guess_on_empty_deck_spec _ "a" "red" ⟨Suit.hearts, 3⟩ rfl rfl rfl).2.2.1

/-- C4: game-over broadcasts `gameOver` whose winners are exactly the
players holding the maximal score (so ties give several winners), resets
the room to waiting, leaves every accumulated score unchanged, and a
subsequent `startGame` keeps those scores. -/
theorem gameOver_spec (room : Room)
    (hnd : (room.players.map Player.name).Nodup) :
    (handleGameOver room).1.isGameStarted = false
  ∧ (handleGameOver room).1.stage = none
  ∧ (handleGameOver room).1.currentCard = none
  ∧ (handleGameOver room).1.players = room.players
  ∧ (∃ winners, (handleGameOver room).2
        = [ServerEvent.gameOver winners (playersView room.players)]
      ∧ ∀ p ∈ room.players,
          (p.name ∈ winners ↔ ∀ q ∈ room.players, q.score ≤ p.score))
  ∧ (∀ rand,
      (handleStartGame rand (handleGameOver room).1).1.players
        = room.players) := by
  refine ⟨rfl, rfl, rfl, rfl, ?_, fun rand => ?_⟩
  · refine ⟨_, handleGameOver_snd room, ?_⟩
    intro p hp
    constructor
    · intro hw
      rcases List.mem_map.mp hw with ⟨q, hqf, hqe⟩
      rcases List.mem_filter.mp hqf with ⟨hqmem, hqpred⟩
      have hqp : q = p := List.inj_on_of_nodup_map hnd hqmem hp hqe
      rw [hqp] at hqpred
      have hm : some p.score = listMax (room.players.map Player.score) :=
        of_decide_eq_true hqpred
      intro q' hq'
      exact listMax_le _ _ hm.symm q'.score (List.mem_map_of_mem _ hq')
    · intro hmax
      have hne : room.players.map Player.score ≠ [] := by
        intro hnil
        have := List.mem_map_of_mem Player.score hp
        rw [hnil] at this
        cases this
      obtain ⟨m, hm⟩ := listMax_isSome _ hne
      have hple : p.score ≤ m :=
        listMax_le _ _ hm _ (List.mem_map_of_mem _ hp)
      have hmmem := listMax_mem _ _ hm
      rcases List.mem_map.mp hmmem with ⟨q0, hq0, hq0e⟩
      have hmle : m ≤ p.score := hq0e ▸ hmax q0 hq0
      have hpm : p.score = m := le_antisymm hple hmle
      refine List.mem_map_of_mem _ (List.mem_filter.mpr ⟨hp, ?_⟩)
      rw [decide_eq_true_iff, hm, hpm]
  · rw [handleStartGame_players]
    rfl

/-- C2: an active guess with a non-empty deck draws the next card,
increments the issuing player's score by exactly 1 when the guess is
correct (leaving it unchanged otherwise, and touching no other player),
advances the stage one step along
red_black → higher_lower → inside_outside → suit → none, replaces
`currentCard` with the drawn card, broadcasts `guessResult` carrying the
new score, the next stage and the new card, and, when the advanced stage
is the terminal value, runs game-over in the same step. -/
theorem guess_active_spec (room : Room) (n g : String) (cur nextCard : Card)
    (deck' : List Card) (pre post : List Player) (p : Player)
    (h1 : room.isGameStarted = true)
    (h2 : room.currentCard = some cur)
    (h3 : deckDraw room.deck = (some nextCard, deck'))
    (hp : room.players = pre ++ p :: post)
    (hname : p.name = n)
    (hpre : ∀ q ∈ pre, q.name ≠ n) :
    (getNextStage (some Stage.red_black) = some Stage.higher_lower
      ∧ getNextStage (some Stage.higher_lower) = some Stage.inside_outside
      ∧ getNextStage (some Stage.inside_outside) = some Stage.suit
      ∧ getNextStage (some Stage.suit) = none)
  ∧ ((handleGuess room n g).1.players
      = pre ++ { p with score :=
          p.score + (if checkGuess g cur nextCard then 1 else 0) } :: post)
  ∧ ((handleGuess room n g).1.deck = deck')
  ∧ ((handleGuess room n g).2.head? = some (ServerEvent.guessResult n
        (p.score + (if checkGuess g cur nextCard then 1 else 0))
        (checkGuess g cur nextCard) (getNextStage room.stage) (some nextCard)))
  ∧ (getNextStage room.stage ≠ none →
      (handleGuess room n g).1.currentCard = some nextCard
      ∧ (handleGuess room n g).1.stage = getNextStage room.stage
      ∧ (handleGuess room n g).1.isGameStarted = true
      ∧ (handleGuess room n g).2 = [ServerEvent.guessResult n
          (p.score + (if checkGuess g cur nextCard then 1 else 0))
          (checkGuess g cur nextCard) (getNextStage room.stage) (some nextCard)])
  ∧ (getNextStage room.stage = none →
      (handleGuess room n g).1.isGameStarted = false
      ∧ (handleGuess room n g).1.stage = none
      ∧ (handleGuess room n g).1.currentCard = none
      ∧ ∃ w, (handleGuess room n g).2 = [ServerEvent.guessResult n
          (p.score + (if checkGuess g cur nextCard then 1 else 0))
          (checkGuess g cur nextCard) none (some nextCard),
          ServerEvent.gameOver w (playersView (pre ++ { p with score :=
            p.score + (if checkGuess g cur nextCard then 1 else 0) } :: post))]) := by
  have hplayers' :
      (if checkGuess g cur nextCard then bumpScore room.players n
       else room.players)
        = pre ++ { p with score :=
            p.score + (if checkGuess g cur nextCard then 1 else 0) } :: post := by
    by_cases hc : checkGuess g cur nextCard
    · rw [if_pos hc, if_pos hc, hp, bumpScore_append pre post p n hname hpre]
    · rw [if_neg hc, if_neg hc, hp]
      simp
  have hfind :
      ((pre ++ { p with score :=
          p.score + (if checkGuess g cur nextCard then 1 else 0) } :: post).find?
        (fun q => decide (q.name = n))).map Player.score
        = some (p.score + (if checkGuess g cur nextCard then 1 else 0)) := by
    rw [find?_name_of_head pre post
          { p with score := p.score + (if checkGuess g cur nextCard then 1 else 0) }
          n hname hpre]
    rfl
  rw [handleGuess_drawn room n g cur nextCard deck' h1 h2 h3]
  simp only [hplayers', hfind, Option.getD_some]
  refine ⟨⟨rfl, rfl, rfl, rfl⟩, ?_, ?_, ?_, ?_, ?_⟩
    <;> by_cases hst : getNextStage room.stage = none
  · simp [hst, handleGameOver_fst]
  · simp [hst]
  · simp [hst, handleGameOver_fst]
  · simp [hst]
  · simp [hst]
  · simp [hst]
  · intro hne
    exact absurd hst hne
  · intro _
    refine ⟨?_, ?_, ?_, ?_⟩ <;> simp [hst, h1]
  · intro _
    refine ⟨?_, ?_, ?_, ?_⟩
      <;> simp [hst, handleGameOver_fst, handleGameOver_snd]
  · intro hterm
    exact absurd hterm hst

/-- C2 witness: in a one-player room at `red_black` holding ♥7, guessing
"black" against a drawn ♠9 is correct and the score becomes 1. -/
theorem guess_active_spec_witness :
    (handleGuess
      { id := "r", players := [⟨"a", 0, 0⟩], deck := [⟨Suit.spades, 9⟩],
        currentCard := some ⟨Suit.hearts, 7⟩, stage := some Stage.red_black,
        isGameStarted := true, creator := "a" } "a" "black").1.players
      = [⟨"a", 1, 0⟩] := by
  have h := (guess_active_spec
      { id := "r", players := [⟨"a", 0, 0⟩], deck := [⟨Suit.spades, 9⟩],
        currentCard := some ⟨Suit.hearts, 7⟩, stage := some Stage.red_black,
        isGameStarted := true, creator := "a" } "a" "black"
      ⟨Suit.hearts, 7⟩ ⟨Suit.spades, 9⟩
      [] [] [] ⟨"a", 0, 0⟩ rfl rfl rfl rfl rfl
      (fun q hq => absurd hq (List.not_mem_nil q))).2.1
  rw [h]
  decide

/-- C4 witness: a tie between two players, both having the maximal
score 3, leaves the room waiting after game-over. -/
theorem gameOver_spec_witness :
    (handleGameOver
      { id := "r", players := [⟨"a", 3, 0⟩, ⟨"b", 3, 1⟩], deck := [],
        currentCard := some ⟨Suit.hearts, 3⟩, stage := some Stage.suit,
        isGameStarted := true, creator := "a" }).1.isGameStarted = false :=
  (gameOver_spec _ (by simp)).1

/-- C7: `startGame` is only effective from waiting: it rebuilds and
reshuffles the full 52-card deck, sets stage `red_black`, draws exactly
one card into `currentCard` (51 cards remain in the deck), and broadcasts
`gameStarted`; on an already-started room it is a silent no-op that
changes no state and sends nothing. -/
theorem startGame_spec (room : Room) (rand : Nat → Nat) :
    (room.isGameStarted = false →
      (deckReset rand).length = 52
      ∧ (deckReset rand).Perm freshDeckCards
      ∧ (handleStartGame rand room).1.isGameStarted = true
      ∧ (handleStartGame rand room).1.stage = some Stage.red_black
      ∧ (handleStartGame rand room).1.currentCard = (deckDraw (deckReset rand)).1
      ∧ (handleStartGame rand room).1.currentCard.isSome = true
      ∧ (handleStartGame rand room).1.deck.length = 51
      ∧ (handleStartGame rand room).1.players = room.players
      ∧ (handleStartGame rand room).2
          = [ServerEvent.gameStarted (some Stage.red_black)
              (handleStartGame rand room).1.currentCard
              (playersView room.players)])
  ∧ (room.isGameStarted = true → handleStartGame rand room = (room, [])) := by
  constructor
  · intro h
    have hne : deckReset rand ≠ [] := by
      intro hnil
      have h52 := deckReset_length rand
      rw [hnil] at h52
      simp at h52
    obtain ⟨c, d', hdraw⟩ := deckDraw_fst_of_ne_nil (deckReset rand) hne
    rw [handleStartGame_of_waiting rand room h, hdraw]
    refine ⟨deckReset_length rand, deckReset_perm rand, rfl, rfl, rfl, rfl,
            ?_, rfl, rfl⟩
    have hlen := deckDraw_snd_length (deckReset rand)
    rw [hdraw, deckReset_length] at hlen
    simpa using hlen
  · exact handleStartGame_of_started rand room

/-- C7 witness: a concrete waiting room starts; a concrete started room is
left exactly as it was, with nothing sent. -/
theorem startGame_spec_witness :
    (handleStartGame (fun _ => 0)
      { id := "r", players := [⟨"a", 0, 0⟩], deck := [], currentCard := none,
        stage := none, isGameStarted := false,
        creator := "a" }).1.isGameStarted = true
    ∧ handleStartGame (fun _ => 0)
        { id := "r", players := [⟨"a", 4, 0⟩], deck := [⟨Suit.clubs, 2⟩],
          currentCard := some ⟨Suit.hearts, 7⟩, stage := some Stage.suit,
          isGameStarted := true, creator := "a" }
        = ({ id := "r", players := [⟨"a", 4, 0⟩], deck := [⟨Suit.clubs, 2⟩],
             currentCard := some ⟨Suit.hearts, 7⟩, stage := some Stage.suit,
             isGameStarted := true, creator := "a" }, []) :=
  ⟨((startGame_spec
      { id := "r", players := [⟨"a", 0, 0⟩], deck := [], currentCard := none,
        stage := none, isGameStarted := false, creator := "a" }
      (fun _ => 0)).1 rfl).2.2.1,
   (startGame_spec
      { id := "r", players := [⟨"a", 4, 0⟩], deck := [⟨Suit.clubs, 2⟩],
        currentCard := some ⟨Suit.hearts, 7⟩, stage := some Stage.suit,
        isGameStarted := true, creator := "a" }
      (fun _ => 0)).2 rfl⟩

/-- C8 counterexample: a `startGame` sent to a room whose game is already
running sends nothing at all — in particular no `GameNotActive` error
message reaches the sender — contradicting the claim that a wrong-state
`startGame` is reported back as an error. -/
theorem startGame_wrong_state_counterexample :
    (handleStartGame (fun _ => 0)
      { id := "r", players := [⟨"a", 0, 0⟩], deck := [⟨Suit.clubs, 2⟩],
        currentCard := some ⟨Suit.hearts, 7⟩, stage := some Stage.red_black,
        isGameStarted := true, creator := "a" }).2 = [] := rfl

/-- C8 (amended): a guess sent while the game is not active is answered to
the sender with the recoverable `GAME_NOT_ACTIVE` error message, the room
state unchanged (and the handler closes nothing); a `startGame` in the
wrong state, by contrast, is a silent no-op that changes no state and
sends no message at all. -/
theorem wrong_state_spec (room : Room) (n g : String) (rand : Nat → Nat) :
    ((room.isGameStarted = false ∨ room.currentCard = none) →
      handleGuess room n g
        = (room, [.errorMsg "GAME_NOT_ACTIVE" "Game is not active"]))
  ∧ (room.isGameStarted = true → handleStartGame rand room = (room, [])) :=
  ⟨handleGuess_not_active room n g, handleStartGame_of_started rand room⟩

/-- C8 witness: a waiting room answers a guess with the error and is left
unchanged. -/
theorem wrong_state_spec_witness :
    handleGuess
      { id := "r", players := [⟨"a", 0, 0⟩], deck := [], currentCard := none,
        stage := none, isGameStarted := false, creator := "a" } "a" "red"
      = ({ id := "r", players := [⟨"a", 0, 0⟩], deck := [],
           currentCard := none, stage := none, isGameStarted := false,
           creator := "a" },
         [.errorMsg "GAME_NOT_ACTIVE" "Game is not active"]) :=
  (wrong_state_spec _ "a" "red" (fun _ => 0)).1 (Or.inl rfl)

/-- C9: a connection attempt whose `roomId:playerName` key maps to a
still-open registered connection is rejected as a duplicate; the global
state — connection registry and rooms, hence the room's player list and
game state — is untouched, the existing mapping survives, and nothing is
broadcast. -/
theorem duplicate_connection_spec (st : ServerState) (ws existing : Conn)
    (roomId playerName : String) (rand : Nat → Nat)
    (hr : roomId ≠ "") (hn : playerName ≠ "")
    (hk : lookupAssoc st.connections (roomId ++ ":" ++ playerName)
            = some existing)
    (ho : existing.state = ConnState.opened) :
    handleNewConnection st ws (some roomId) (some playerName) rand
      = (st, .rejectedDuplicate, [])
    ∧ lookupAssoc
        (handleNewConnection st ws (some roomId) (some playerName) rand).1.connections
        (roomId ++ ":" ++ playerName) = some existing := by
  have hfr : paramFalsy (some roomId) = false := by simp [paramFalsy, hr]
  have hfn : paramFalsy (some playerName) = false := by
    simp [paramFalsy, hn]
  have main : handleNewConnection st ws (some roomId) (some playerName) rand
      = (st, .rejectedDuplicate, []) := by
    unfold handleNewConnection
    rw [hfr, hfn]
    simp only [Bool.false_eq_true, false_and, if_false, false_or, if_false,
               Option.getD_some]
    rw [hk]
    simp [ho]
  refine ⟨main, ?_⟩
  rw [main]
  exact hk

/-- C9 witness: with "r:a" registered to the open connection 5, a second
attempt for the same room and name by connection 6 is rejected and the
state is unchanged. -/
theorem duplicate_connection_spec_witness :
    handleNewConnection
      { rooms := [], connections := [("r:a", ⟨5, ConnState.opened⟩)] }
      ⟨6, ConnState.opened⟩ (some "r") (some "a") (fun _ => 0)
      = ({ rooms := [], connections := [("r:a", ⟨5, ConnState.opened⟩)] },
         .rejectedDuplicate, []) :=
  (duplicate_connection_spec _ ⟨6, ConnState.opened⟩ ⟨5, ConnState.opened⟩
      "r" "a" (fun _ => 0) (by decide) (by decide) (by decide) rfl).1

/-- A `guess` step preserves the waiting-room invariant: if the resulting
room is not in a started game, it holds no current card and no stage. -/
theorem handleGuess_waiting_inv (room : Room) (n g : String)
    (ih : room.isGameStarted = false →
      room.currentCard = none ∧ room.stage = none)
    (hng : (handleGuess room n g).1.isGameStarted = false) :
    (handleGuess room n g).1.currentCard = none
    ∧ (handleGuess room n g).1.stage = none := by
  by_cases hs : room.isGameStarted = true
  · by_cases hcn : room.currentCard = none
    · rw [handleGuess_not_active room n g (Or.inr hcn)] at hng ⊢
      exact ih hng
    · obtain ⟨cur, hc⟩ := Option.ne_none_iff_exists'.mp hcn
      by_cases hdeck : room.deck = []
      · rw [handleGuess_empty_deck room n g cur hs hc hdeck]
        rw [handleGameOver_fst]
        exact ⟨rfl, rfl⟩
      · obtain ⟨nc, d', hdraw⟩ := deckDraw_fst_of_ne_nil room.deck hdeck
        rw [handleGuess_drawn room n g cur nc d' hs hc hdraw] at hng ⊢
        by_cases hst : getNextStage room.stage = none
        · simp [hst, handleGameOver_fst]
        · simp only [if_neg hst] at hng
          rw [hs] at hng
          cases hng
  · have hf : room.isGameStarted = false := by
      cases hb : room.isGameStarted
      · rfl
      · exact absurd hb hs
    rw [handleGuess_not_active room n g (Or.inl hf)] at hng ⊢
    exact ih hng

/-- C5: along every execution of the room lifecycle — creation, joins,
leaves, `startGame`, `guess` and game-over — a room that is not in a
started game holds no current card and no stage. -/
theorem reachable_room_invariant (room : Room) (h : ReachableRoom room)
    (hng : room.isGameStarted = false) :
    room.currentCard = none ∧ room.stage = none := by
  induction h with
  | created roomId creator playerName connId rand => exact ⟨rfl, rfl⟩
  | join room playerName connId hr ih => exact ih hng
  | leave room playerName hr ih => exact ih hng
  | start room rand hr ih =>
    by_cases hs : room.isGameStarted = true
    · rw [handleStartGame_of_started rand room hs] at hng ⊢
      exact ih hng
    · have hf : room.isGameStarted = false := by
        cases hb : room.isGameStarted
        · rfl
        · exact absurd hb hs
      rw [handleStartGame_of_waiting rand room hf] at hng
      cases hng
  | guess room n g hr ih => exact handleGuess_waiting_inv room n g ih hng
  | gameOver room hr ih =>
    rw [handleGameOver_fst]
    exact ⟨rfl, rfl⟩

/-- C5 witness: the room reached by creating it with a first join is
waiting with no card and no stage. -/
theorem reachable_room_invariant_witness :
    (joinRoom (freshRoom "r" "a" (fun _ => 0)) "a" 0).currentCard = none :=
  (reachable_room_invariant _
    (ReachableRoom.created "r" "a" "a" 0 (fun _ => 0)) rfl).1

/-- C6: from any waiting room, `startGame` followed by exactly four
card-drawing guesses walks the stages red_black, higher_lower,
inside_outside and suit, ends the round, resets the room to waiting, and
the accumulated player scores persist unchanged into the next
`startGame`. -/
theorem round_trip_spec (room : Room) (rand rand2 : Nat → Nat)
    (n1 g1 n2 g2 n3 g3 n4 g4 : String)
    (h : room.isGameStarted = false) :
    ((handleGuess (handleGuess (handleGuess (handleGuess
        (handleStartGame rand room).1 n1 g1).1 n2 g2).1 n3 g3).1
        n4 g4).1.isGameStarted = false)
  ∧ ((handleGuess (handleGuess (handleGuess (handleGuess
        (handleStartGame rand room).1 n1 g1).1 n2 g2).1 n3 g3).1
        n4 g4).1.stage = none)
  ∧ ((handleGuess (handleGuess (handleGuess (handleGuess
        (handleStartGame rand room).1 n1 g1).1 n2 g2).1 n3 g3).1
        n4 g4).1.currentCard = none)
  ∧ (handleStartGame rand2 (handleGuess (handleGuess (handleGuess
        (handleGuess (handleStartGame rand room).1 n1 g1).1 n2 g2).1
        n3 g3).1 n4 g4).1).1.players
      = (handleGuess (handleGuess (handleGuess (handleGuess
          (handleStartGame rand room).1 n1 g1).1 n2 g2).1 n3 g3).1
          n4 g4).1.players := by
  have hne : deckReset rand ≠ [] := by
    intro hnil
    have h52 := deckReset_length rand
    rw [hnil] at h52
    simp at h52
  obtain ⟨c0, d0, hdraw0⟩ := deckDraw_fst_of_ne_nil (deckReset rand) hne
  have hd0 : d0.length = 51 := by
    have hlen := deckDraw_snd_length (deckReset rand)
    rw [hdraw0, deckReset_length] at hlen
    simpa using hlen
  set r1 := (handleStartGame rand room).1 with hr1
  have e1 : r1 =
      { room with
        isGameStarted := true
        deck := d0
        stage := some Stage.red_black
        currentCard := some c0 } := by
    rw [hr1, handleStartGame_of_waiting rand room h, hdraw0]
  have h1s : r1.isGameStarted = true := by rw [e1]
  have h1c : r1.currentCard.isSome = true := by rw [e1]; rfl
  have h1st : r1.stage = some Stage.red_black := by rw [e1]
  have h1d : r1.deck.length = 51 := by rw [e1]; exact hd0
  have h1ne : r1.deck ≠ [] := by
    apply List.ne_nil_of_length_pos
    omega
  obtain ⟨h2st, h2d, _, h2act⟩ := handleGuess_step r1 n1 g1 h1s h1c h1ne
  rw [h1st] at h2st h2act
  obtain ⟨h2s, h2c⟩ := h2act (by simp [getNextStage])
  set r2 := (handleGuess r1 n1 g1).1 with hr2
  have h2st' : r2.stage = some Stage.higher_lower := h2st
  have h2d' : r2.deck.length = 50 := by omega
  have h2ne : r2.deck ≠ [] := by
    apply List.ne_nil_of_length_pos
    omega
  obtain ⟨h3st, h3d, _, h3act⟩ := handleGuess_step r2 n2 g2 h2s h2c h2ne
  rw [h2st'] at h3st h3act
  obtain ⟨h3s, h3c⟩ := h3act (by simp [getNextStage])
  set r3 := (handleGuess r2 n2 g2).1 with hr3
  have h3st' : r3.stage = some Stage.inside_outside := h3st
  have h3d' : r3.deck.length = 49 := by omega
  have h3ne : r3.deck ≠ [] := by
    apply List.ne_nil_of_length_pos
    omega
  obtain ⟨h4st, h4d, _, h4act⟩ := handleGuess_step r3 n3 g3 h3s h3c h3ne
  rw [h3st'] at h4st h4act
  obtain ⟨h4s, h4c⟩ := h4act (by simp [getNextStage])
  set r4 := (handleGuess r3 n3 g3).1 with hr4
  have h4st' : r4.stage = some Stage.suit := h4st
  have h4d' : r4.deck.length = 48 := by omega
  have h4ne : r4.deck ≠ [] := by
    apply List.ne_nil_of_length_pos
    omega
  obtain ⟨h5st, _, h5term, _⟩ := handleGuess_step r4 n4 g4 h4s h4c h4ne
  rw [h4st'] at h5st h5term
  obtain ⟨h5s, h5c⟩ := h5term (by simp [getNextStage])
  refine ⟨h5s, ?_, h5c, handleStartGame_players rand2 _⟩
  rw [h5st]
  simp [getNextStage]

/-- C6 witness: a concrete one-player waiting room returns to waiting
after `startGame` and four guesses. -/
theorem round_trip_spec_witness :
    (handleGuess (handleGuess (handleGuess (handleGuess
      (handleStartGame (fun _ => 0)
        { id := "r", players := [⟨"a", 0, 0⟩], deck := [],
          currentCard := none, stage := none, isGameStarted := false,
          creator := "a" }).1 "a" "red").1 "a" "higher").1 "a" "inside").1
      "a" "hearts").1.isGameStarted = false :=
  (round_trip_spec
    { id := "r", players := [⟨"a", 0, 0⟩], deck := [], currentCard := none,
      stage := none, isGameStarted := false, creator := "a" }
    (fun _ => 0) (fun _ => 0) "a" "red" "a" "higher" "a" "inside" "a" "hearts"
    rfl).1
